import Mathlib

/-!
Verification of the AtlasSchema reconciliation controller.

This file gives a shallow embedding of the controller code
(`AtlasSchemaReconciler.Reconcile`, the `AtlasSchema` status helpers,
`managedData`, `truncateSQL` and `Schema.DesiredState`) and proves the
stated properties about it.  External collaborators (the Kubernetes
client, the dev-database provisioner, the migration engine client and
the lint runner) are modelled as oracles: an `Env` value records the
answer each collaborator would give during one reconciliation pass, and
the embedded `reconcile` function additionally returns the trace of
engine calls it performed, so that properties about which calls happen
in a pass can be stated directly.
-/

namespace AtlasOp

/-! ## String helpers (byte-level semantics of Go strings) -/

/-- UTF-8 encoding of a single character, the byte sequence Go uses for
the character inside a `string`. -/
def encodeChar (c : Char) : List UInt8 :=
  let v := c.toNat
  if v < 0x80 then [UInt8.ofNat v]
  else if v < 0x800 then
    [UInt8.ofNat (0xC0 ||| (v >>> 6)), UInt8.ofNat (0x80 ||| (v &&& 0x3F))]
  else if v < 0x10000 then
    [UInt8.ofNat (0xE0 ||| (v >>> 12)), UInt8.ofNat (0x80 ||| ((v >>> 6) &&& 0x3F)),
      UInt8.ofNat (0x80 ||| (v &&& 0x3F))]
  else
    [UInt8.ofNat (0xF0 ||| (v >>> 18)), UInt8.ofNat (0x80 ||| ((v >>> 12) &&& 0x3F)),
      UInt8.ofNat (0x80 ||| ((v >>> 6) &&& 0x3F)), UInt8.ofNat (0x80 ||| (v &&& 0x3F))]

/-- The bytes of a Go string (`[]byte(s)`), i.e. its UTF-8 encoding. -/
def utf8Bytes (s : String) : List UInt8 :=
  (s.data.map encodeChar).flatten

/-- Byte length of a Go string: `len(s)`. -/
def stringSize (s : String) : Nat :=
  (s.data.map Char.utf8Size).sum

/-- Whether `pre` is a prefix of `l` (bytewise on characters). -/
def listHasPfx : List Char → List Char → Bool
  | [], _ => true
  | _ :: _, [] => false
  | a :: as, b :: bs => a = b && listHasPfx as bs

/-- Whether `sub` occurs inside `l`: `strings.Contains`. -/
def listHasSub (sub : List Char) : List Char → Bool
  | [] => sub.isEmpty
  | a :: l => listHasPfx sub (a :: l) || listHasSub sub l

/-- `strings.Contains s sub`. -/
def containsSubstr (s sub : String) : Bool :=
  listHasSub sub.data s.data

/-- `strings.HasPrefix s pre`. -/
def strHasPfx (s pre : String) : Bool :=
  listHasPfx pre.data s.data

/-- `strings.IndexRune s c`: byte index of the first occurrence of `c`
in `s`, or `-1` if it does not occur.  (`c` is only used at ASCII
characters here, where Go byte scanning and character scanning agree.) -/
def indexRune (s : String) (c : Char) : Int :=
  if s.data.contains c then
    ((((s.data.takeWhile (fun x => x ≠ c)).map Char.utf8Size).sum : Nat) : Int)
  else -1

/-- `s[:idx]` where `idx` is the byte index of the first `'\n'` in `s`:
the content of the first line of `s`. -/
def firstLineOf (s : String) : String :=
  String.mk (s.data.takeWhile (fun x => x ≠ '\n'))

/-- `strings.ToLower` (the inputs used here are ASCII, where Go and
Lean lower-casing agree). -/
def strToLower (s : String) : String :=
  String.mk (s.data.map Char.toLower)

/-- `%.8s`-style truncation used for the push tag (ASCII input, so byte
and character truncation agree). -/
def strTake (s : String) (n : Nat) : String :=
  String.mk (s.data.take n)

/-! ## net/url.URL -/

/-- Model of `net/url.URL` restricted to the fields this controller
reads or writes: `Scheme`, `Host`, `Path` and `RawQuery`. -/
structure URL where
  Scheme : String
  Host : String
  Path : String
  RawQuery : String
deriving DecidableEq

abbrev URLRef := URL

/-- Model of `(*url.URL).String()` (net/url) restricted to the fields
of `URL`: `scheme:`, then `//host` whenever a scheme or host is present
and there is a host or a path, then the path (with a separating slash
when the path is relative and a host is present), then `?query`. -/
def URL.toString (u : URL) : String :=
  (if u.Scheme ≠ "" then u.Scheme ++ ":" else "")
    ++ (if u.Scheme ≠ "" ∨ u.Host ≠ "" then
          (if u.Host ≠ "" ∨ u.Path ≠ "" then "//" else "") ++ u.Host
        else "")
    ++ (if u.Path ≠ "" ∧ ¬ strHasPfx u.Path ("/") ∧ u.Host ≠ "" then "/" else "")
    ++ u.Path
    ++ (if u.RawQuery ≠ "" then "?" ++ u.RawQuery else "")

/-- Model of `path.Join(a, b)` for the host/path shapes used by the
push call: empty parts are dropped and the rest joined with a single
slash (full path cleaning is not needed for these shapes). -/
def pathJoin (a b : String) : String :=
  if a = "" then b
  else if b = "" then a
  else if strHasPfx b ("/") then a ++ b
  else a ++ "/" ++ b

/-! ## Conditions (k8s.io/apimachinery meta helpers) -/

/-- `metav1.Condition` restricted to the fields the controller writes
(`status` is the string form of `metav1.ConditionStatus`). -/
structure Condition where
  type : String
  status : String
  reason : String
  message : String
deriving DecidableEq

/-- The `readyCond` condition type. -/
def readyCond : String := "Ready"

/-- Model of `meta.SetStatusCondition`: if a condition of the same type
exists it is overwritten in place, otherwise the condition is appended. -/
def setStatusCondition (conds : List Condition) (c : Condition) : List Condition :=
  if conds.any (fun x => x.type == c.type) then
    conds.map (fun x => if x.type == c.type then c else x)
  else conds ++ [c]

/-- Model of `meta.FindStatusCondition`. -/
def findStatusCondition (conds : List Condition) (t : String) : Option Condition :=
  conds.find? (fun x => x.type == t)

/-- Model of `meta.IsStatusConditionTrue`. -/
def IsStatusConditionTrue (conds : List Condition) (t : String) : Bool :=
  match findStatusCondition conds t with
  | some c => c.status == "True"
  | none => false

/-! ## API types (api/v1alpha1) -/

/-- `AtlasSchemaStatus`. -/
structure AtlasSchemaStatus where
  Conditions : List Condition
  ObservedHash : String
  LastApplied : Int
  PlanURL : String
  PlanLink : String
deriving DecidableEq

/-- A schema plan file as returned by the engine
(`atlasexec.SchemaPlanFile`): URL, human-facing link and status. -/
structure SchemaPlanFile where
  URL : String
  Link : String
  Status : String
deriving DecidableEq

/-- `report.Changes` of a schema apply report. -/
structure SchemaApplyChanges where
  Applied : List String
  Pending : List String
deriving DecidableEq

/-- `atlasexec.SchemaApply` report: the applied/pending change lists
and the plan file attached to the apply, when any. -/
structure SchemaApplyReport where
  Changes : SchemaApplyChanges
  Plan : Option SchemaPlanFile
deriving DecidableEq

/-- Stands in for the `json.Marshal` rendering of the apply report that
is embedded in the Ready condition message.  No verified property
inspects this text; only the overall message shape matters. -/
def reportJSON (r : SchemaApplyReport) : String :=
  ("applied: ") ++ String.intercalate (", ") r.Changes.Applied
    ++ ("; pending: ") ++ String.intercalate (", ") r.Changes.Pending

/-- The `AtlasSchema` resource, restricted to the mutable status the
reconciler reads and writes. -/
structure AtlasSchema where
  Status : AtlasSchemaStatus
deriving DecidableEq

/-- `(*AtlasSchema).IsReady`: true iff the Ready condition is true. -/
def AtlasSchema.IsReady (m : AtlasSchema) : Bool :=
  IsStatusConditionTrue m.Status.Conditions readyCond

/-- `(*AtlasSchema).IsHashModified`: true iff the hash differs from the
observed hash. -/
def AtlasSchema.IsHashModified (sc : AtlasSchema) (hash : String) : Bool :=
  hash != sc.Status.ObservedHash

/-- `(*AtlasSchema).SetNotReady`: overwrite (or add) the Ready
condition with status False and the given reason and message. -/
def AtlasSchema.SetNotReady (sc : AtlasSchema) (reason msg : String) : AtlasSchema :=
  { sc with
    Status := { sc.Status with
      Conditions := setStatusCondition sc.Status.Conditions
        { type := readyCond, status := "False", reason := reason, message := msg } } }

/-- `(*AtlasSchema).SetReady`: replace the whole status with `status`,
then overwrite (or add) the Ready condition with status True on the new
status. -/
def AtlasSchema.SetReady (sc : AtlasSchema) (status : AtlasSchemaStatus)
    (report : Option SchemaApplyReport) : AtlasSchema :=
  let msg := match report with
    | some r => ("The schema has been applied successfully. Apply response: ") ++ reportJSON r
    | none => "The schema has been applied successfully."
  { sc with
    Status := { status with
      Conditions := setStatusCondition status.Conditions
        { type := readyCond, status := "True", reason := "Applied", message := msg } } }

/-- `SchemaTypeAtlas` URL scheme. -/
def SchemaTypeAtlas : String := "atlas"

/-- `SchemaTypeFile` URL scheme. -/
def SchemaTypeFile : String := "file"

/-- `LintReviewAlways`. -/
def LintReviewAlways : String := "ALWAYS"

/-- `LintReviewError`. -/
def LintReviewError : String := "ERROR"

/-- `CheckConfig`. -/
structure CheckConfig where
  Error : Bool
deriving DecidableEq

/-- `Lint` policy: the destructive check configuration and the review
level. -/
structure Lint where
  Destructive : Option CheckConfig
  Review : String
deriving DecidableEq

abbrev LintRef := Lint

/-- `Policy` (the `Diff` part is never read by the reconciler). -/
structure Policy where
  Lint : Option LintRef
deriving DecidableEq

/-- `Cloud` target configuration. -/
structure Cloud where
  Token : String
  Repo : String
deriving DecidableEq

/-! ## managedData -/

/-- `managedData`: information about the managed database and its
desired state, recomputed by `extractData` on every pass.  `Desired`
is `*url.URL` in the source; `extractData` never produces a nil
pointer on success, so it is embedded as a plain `URL`. -/
structure managedData where
  EnvName : String
  URL : URLRef
  DevURL : String
  Schemas : List String
  Exclude : List String
  Policy : Option Policy
  TxMode : String
  Desired : URLRef
  Cloud : Option Cloud
  schema : List UInt8
deriving DecidableEq

/-- `(*managedData).shouldLint`: true iff the destructive lint policy
is set to error. -/
def managedData.shouldLint (d : managedData) : Bool :=
  match d.Policy with
  | none => false
  | some p =>
    match p.Lint with
    | none => false
    | some l =>
      match l.Destructive with
      | none => false
      | some c => c.Error

/-- `(*managedData).hash`: the digest of the literal schema bytes when
they are non-empty, otherwise of the desired-state URL string.
`digest` abstracts `hex.EncodeToString(sha256.Sum(...))`; the proofs
treat it as the collision-free idealization of SHA-256 the spec
assumes. -/
def managedData.hash (digest : List UInt8 → String) (d : managedData) : String :=
  if d.schema.length > 0 then digest d.schema
  else digest (utf8Bytes d.Desired.toString)

/-- The exact byte sequence `(*managedData).hash` feeds to the digest. -/
def hashInput (d : managedData) : List UInt8 :=
  if d.schema.length > 0 then d.schema else utf8Bytes d.Desired.toString

/-- `(*managedData).repoURL`: the repository URL, from the cloud
configuration when set, else from an atlas-scheme desired URL. -/
def managedData.repoURL (d : managedData) : Option URLRef :=
  match d.Cloud with
  | some c =>
    if c.Repo ≠ "" then
      some { Scheme := SchemaTypeAtlas, Host := c.Repo, Path := "", RawQuery := "" }
    else if d.Desired.Scheme = SchemaTypeAtlas then some { d.Desired with RawQuery := "" }
    else none
  | none =>
    if d.Desired.Scheme = SchemaTypeAtlas then some { d.Desired with RawQuery := "" }
    else none

/-! ## Schema.DesiredState -/

/-- `corev1.ConfigMapKeySelector` restricted to the fields read. -/
structure ConfigMapKeySelector where
  Name : String
  Key : String
deriving DecidableEq

/-- A config map: its data entries. -/
structure ConfigMap where
  Data : List (String × String)
deriving DecidableEq

/-- `Schema`: the desired state of the target database schema. -/
structure Schema where
  SQL : String
  HCL : String
  URL : String
  ConfigMapKeyRef : Option ConfigMapKeySelector
deriving DecidableEq

/-- `filepath.Ext`: the suffix of the last path element beginning at
its final dot, or the empty string. -/
def filepathExt (p : String) : String :=
  go p.data.reverse []
where
  go : List Char → List Char → String
    | [], _ => ""
    | c :: rest, acc =>
      if c = '.' then String.mk ('.' :: acc)
      else if c = '/' then ""
      else go rest (c :: acc)

/-- Model of `net/url.Parse` restricted to what `DesiredState`
inspects: scheme extraction for `scheme://rest` inputs (the scheme is
lower-cased as in net/url), with scheme-less inputs parsed as a bare
path and a leading `://` rejected. -/
def urlParse (raw : String) : Except String URL :=
  match raw.splitOn ("://") with
  | [_] => Except.ok { Scheme := "", Host := "", Path := raw, RawQuery := "" }
  | s0 :: rest =>
    if s0 = "" then Except.error ("missing protocol scheme")
    else
      let r := String.intercalate ("://") rest
      match r.splitOn ("/") with
      | [] => Except.ok { Scheme := strToLower s0, Host := r, Path := "", RawQuery := "" }
      | h :: ps =>
        let u : URL :=
          { Scheme := strToLower s0, Host := h,
            Path := if ps = [] then "" else "/" ++ String.intercalate ("/") ps,
            RawQuery := "" }
        Except.ok u
  | [] => Except.ok { Scheme := "", Host := "", Path := raw, RawQuery := "" }

/-- A Kubernetes reader for config maps: namespace and name to the
config map, `none` when absent (a get error). -/
def CMReader := String → String → Option ConfigMap

/-- `Schema.DesiredState`: resolve the desired schema, in priority
order config-map reference, inline HCL, inline SQL, URL; with none of
them set the call fails with `no desired state specified`. -/
def Schema.DesiredState (s : Schema) (reader : CMReader) (ns : String) :
    Except String (URLRef × List UInt8) :=
  match s.ConfigMapKeyRef with
  | some ref =>
    match reader ns ref.Name with
    | none => Except.error ("configmaps " ++ ns ++ "/" ++ ref.Name ++ " not found")
    | some val =>
      let ext := strToLower (filepathExt ref.Key)
      match (val.Data.find? (fun p => p.1 == ref.Key)).map Prod.snd with
      | none =>
        Except.error ("configmaps " ++ ns ++ "/" ++ ref.Name
          ++ " does not contain key \"" ++ ref.Key ++ "\"")
      | some desired =>
        if ext = ".hcl" ∨ ext = ".sql" then
          let u : URLRef :=
            { Scheme := SchemaTypeFile, Host := "", Path := "schema" ++ ext,
              RawQuery := "" }
          Except.ok (u, utf8Bytes desired)
        else
          Except.error ("configmaps key \"" ++ ref.Key
            ++ "\" must be ending with .sql or .hcl, received \"" ++ ext ++ "\"")
  | none =>
    if s.HCL ≠ "" then
      let u : URLRef :=
        { Scheme := SchemaTypeFile, Host := "", Path := "schema.hcl", RawQuery := "" }
      Except.ok (u, utf8Bytes s.HCL)
    else if s.SQL ≠ "" then
      let u : URLRef :=
        { Scheme := SchemaTypeFile, Host := "", Path := "schema.sql", RawQuery := "" }
      Except.ok (u, utf8Bytes s.SQL)
    else if s.URL ≠ "" then
      match urlParse s.URL with
      | Except.ok u =>
        if u.Scheme ≠ SchemaTypeAtlas then
          Except.error ("unsupported URL schema \"" ++ u.Scheme ++ "\"")
        else Except.ok (u, [])
      | Except.error e => Except.error e
    else Except.error ("no desired state specified")

/-! ## truncateSQL -/

/-- `sqlLimitSize`. -/
def sqlLimitSize : Int := 1024

/-- `truncateSQL`: truncation of a change list to roughly `size`
bytes.  `none` models the out-of-bounds panic of `s[0]` on an empty
list (reachable only when `size` is negative). -/
def truncateSQL (s : List String) (size : Int) : Option (List String) :=
  let total := (s.map stringSize).sum
  if (total : Int) > size then
    match s with
    | [] => none
    | s0 :: _ =>
      if (stringSize s0 : Int) ≤ size then
        some [s0, ("-- truncated ") ++ toString (total - stringSize s0) ++ (" bytes...")]
      else if indexRune s0 '\n' ≠ -1 ∧ indexRune s0 '\n' ≤ size then
        some [firstLineOf s0 ++ ("\n-- truncated ")
          ++ toString ((total : Int) - (indexRune s0 '\n' + 1)) ++ (" bytes...")]
      else
        some [("-- truncated ") ++ toString total ++ (" bytes...")]
  else some s

/-! ## Errors and controller results -/

/-- A Go error value as the controller observes it: a message and
whether `isSQLErr` recognizes it as a SQL execution error, possibly
wrapped as transient. -/
inductive AErr where
  | plain (msg : String) (sql : Bool) : AErr
  | transientWrap (e : AErr) : AErr
deriving DecidableEq

/-- `err.Error()`: the transient wrapper forwards the inner message. -/
def AErr.message : AErr → String
  | .plain m _ => m
  | .transientWrap e => e.message

/-- `isSQLErr` on the modelled error (the wrapper forwards). -/
def AErr.isSQL : AErr → Bool
  | .plain _ s => s
  | .transientWrap e => e.isSQL

/-- Modelled from the spec: `isTransient` reports whether the error was
wrapped as transient (spec section 4.4); the helper itself lives in
controller code outside src/. -/
def isTransient : AErr → Bool
  | .transientWrap _ => true
  | .plain _ _ => false

/-- Modelled from the spec: `transient` wraps an error so the retry
scheduler knows to requeue it (spec section 4.4); the helper itself
lives in controller code outside src/. -/
def transient (e : AErr) : AErr :=
  AErr.transientWrap e

/-- `ctrl.Result`, durations counted in seconds. -/
structure CtrlResult where
  Requeue : Bool := false
  RequeueAfter : Int := 0
deriving DecidableEq

/-- Modelled from the spec: `result(err)` turns a classified error into
a controller result — a transient error is retried by requeueing after
its delay, a fatal error suppresses automatic requeue and is surfaced
(spec sections 4.4 and 7); the helper itself lives in controller code
outside src/. -/
def result (e : AErr) : CtrlResult × Option AErr :=
  if isTransient e then ({ Requeue := false, RequeueAfter := 5 }, none)
  else ({ Requeue := false, RequeueAfter := 0 }, some e)

/-! ## Engine call parameters and the call trace -/

abbrev Vars2 := List (String × String)

/-- Map update on `atlasexec.Vars2`. -/
def Vars2.set (v : Vars2) (k val : String) : Vars2 :=
  if v.any (fun p => p.1 == k) then
    v.map (fun p => if p.1 == k then (k, val) else p)
  else v ++ [(k, val)]

/-- Map lookup on `atlasexec.Vars2` (zero value on a missing key). -/
def Vars2.get (v : Vars2) (k : String) : String :=
  match v.find? (fun p => p.1 == k) with
  | some p => p.2
  | none => ""

/-- `atlasexec.SchemaApplyParams` restricted to the fields set here. -/
structure SchemaApplyParams where
  Env : String
  Vars : Vars2 := []
  To : String
  TxMode : String
  PlanURL : String := ""
  AutoApprove : Bool := false
deriving DecidableEq

/-- `atlasexec.SchemaPlanListParams`. -/
structure SchemaPlanListParams where
  Env : String
  Vars : Vars2
  Repo : String
  From : List String
  To : List String
deriving DecidableEq

/-- `atlasexec.SchemaPlanParams`. -/
structure SchemaPlanParams where
  Env : String
  Vars : Vars2
  Repo : String
  From : List String
  To : List String
  Pending : Bool
deriving DecidableEq

/-- `atlasexec.SchemaInspectParams`. -/
structure SchemaInspectParams where
  Env : String
  Vars : Vars2
  URL : String
  Format : String
deriving DecidableEq

/-- `atlasexec.SchemaPushParams`. -/
structure SchemaPushParams where
  Env : String
  Vars : Vars2
  Name : String
  Tag : String
  URL : List String
deriving DecidableEq

/-- One call to the migration engine client or the lint runner,
recorded in the order the pass performs them. -/
inductive ACall where
  | whoAmI : ACall
  | schemaInspect (p : SchemaInspectParams) : ACall
  | schemaPush (p : SchemaPushParams) : ACall
  | schemaPlan (p : SchemaPlanParams) : ACall
  | schemaPlanList (p : SchemaPlanListParams) : ACall
  | schemaApply (p : SchemaApplyParams) : ACall
  | lintRun (vars : Vars2) : ACall
deriving DecidableEq

/-- Outcome of `r.lint`: success, a destructive-change error (carrying
the reason and message its `FirstRun` method reports, and the plain
error value), or another failure. -/
inductive LintOutcome where
  | ok : LintOutcome
  | destructive (firstRunReason firstRunMsg : String) (e : AErr) : LintOutcome
  | fail (e : AErr) : LintOutcome

/-- Outcome of `cli.WhoAmI`: an authenticated identity, the
`ErrRequireLogin` sentinel, or another failure. -/
inductive WhoAmIRes where
  | ok (org : String) : WhoAmIRes
  | requireLogin : WhoAmIRes
  | fail (e : AErr) : WhoAmIRes

/-- The answers the external collaborators give during one pass: the
data extraction, the dev-database provisioner, working-directory and
client construction, and each engine-client operation (each is invoked
at most once per pass). `now` is the `time.Now().Unix()` timestamp. -/
structure Env where
  extractData : Except AErr managedData
  devURL : Except AErr String
  newWorkingDir : Except AErr Unit
  atlasClient : Except AErr Unit
  whoami : WhoAmIRes
  schemaInspect : Except AErr String
  schemaPush : Except AErr String
  schemaPlan : Except AErr SchemaPlanFile
  schemaPlanList : Except AErr (List SchemaPlanFile)
  schemaApply : Except AErr SchemaApplyReport
  lintResult : LintOutcome
  now : Int

/-- The observable outcome of one reconciliation pass: the controller
result and error, the resource with its updated status, and the trace
of engine/lint calls made. -/
structure ReconcileOut where
  ctrlResult : CtrlResult
  retErr : Option AErr
  resource : AtlasSchema
  calls : List ACall

/-- An error return that surfaces the error unchanged
(`res.SetNotReady(reason, err.Error()); return result(err)`). -/
def errOut (res : AtlasSchema) (reason : String) (e : AErr) (calls : List ACall) :
    ReconcileOut :=
  let res1 := res.SetNotReady reason e.message
  let p := result e
  { ctrlResult := p.1, retErr := p.2, resource := res1, calls := calls }

/-- An error return that first classifies the error
(`if !isSQLErr(err) { err = transient(err) }`) before `result`. -/
def errOutClassified (res : AtlasSchema) (reason : String) (e : AErr)
    (calls : List ACall) : ReconcileOut :=
  let res1 := res.SetNotReady reason e.message
  let e1 := if e.isSQL then e else transient e
  let p := result e1
  { ctrlResult := p.1, retErr := p.2, resource := res1, calls := calls }

/-! ## Reconcile -/

/-- The `createPlan` closure of `Reconcile`: push a file-based desired
state to the registry under a content-derived tag, then request a new
pending plan; `no changes to be made` counts as convergence. -/
def createPlan (env : Env) (res : AtlasSchema) (data : managedData) (vars : Vars2)
    (repo : URL) (desiredURL0 : String) (hash : String) (calls0 : List ACall) :
    ReconcileOut :=
  let planStep : String → List ACall → ReconcileOut := fun desiredURL calls =>
    let planParams : SchemaPlanParams :=
      { Env := data.EnvName, Vars := vars, Repo := repo.toString,
        From := ["env://url"], To := [desiredURL], Pending := true }
    let calls := calls ++ [ACall.schemaPlan planParams]
    match env.schemaPlan with
    | Except.error e =>
      if containsSubstr e.message ("no changes to be made") then
        let res1 := res.SetReady
          { Conditions := [], ObservedHash := hash, LastApplied := env.now,
            PlanURL := "", PlanLink := "" } none
        { ctrlResult := {}, retErr := none, resource := res1, calls := calls }
      else errOutClassified res ("SchemaPlan") e calls
    | Except.ok plan =>
      let res1 := { res with
        Status := { res.Status with PlanURL := plan.URL, PlanLink := plan.Link } }
      let res2 := res1.SetNotReady ("ApprovalPending") ("Schema plan is waiting for approval")
      { ctrlResult := { Requeue := false, RequeueAfter := 5 }, retErr := none,
        resource := res2, calls := calls }
  if data.Desired.Scheme = SchemaTypeFile then
    let inspectParams : SchemaInspectParams :=
      { Env := data.EnvName, Vars := vars, URL := desiredURL0,
        Format := "\x7b\x7b .Hash | base64url \x7d\x7d" }
    let calls := calls0 ++ [ACall.schemaInspect inspectParams]
    match env.schemaInspect with
    | Except.error e => errOutClassified res ("SchemaPush") e calls
    | Except.ok tag =>
      let pushParams : SchemaPushParams :=
        { Env := data.EnvName, Vars := vars, Name := pathJoin repo.Host repo.Path,
          Tag := ("operator-plan-") ++ strTake (strToLower tag) 8, URL := [desiredURL0] }
      let calls := calls ++ [ACall.schemaPush pushParams]
      match env.schemaPush with
      | Except.error e => errOutClassified res ("SchemaPush") e calls
      | Except.ok stateURL => planStep stateURL calls
  else planStep desiredURL0 calls0

/-- The shared tail of `Reconcile` after a schema apply (lines 421-445
of the source): error classification, change-list truncation and the
Ready status write. -/
def applyFinish (env : Env) (res : AtlasSchema) (hash : String)
    (outcome : Except AErr SchemaApplyReport) (calls : List ACall) : ReconcileOut :=
  match outcome with
  | Except.error e => errOutClassified res ("ApplyingSchema") e calls
  | Except.ok report =>
    let report1 : SchemaApplyReport :=
      { report with Changes :=
        { Applied := (truncateSQL report.Changes.Applied sqlLimitSize).getD
            report.Changes.Applied,
          Pending := (truncateSQL report.Changes.Pending sqlLimitSize).getD
            report.Changes.Pending } }
    let s : AtlasSchemaStatus :=
      { Conditions := [], ObservedHash := hash, LastApplied := env.now,
        PlanURL := match report1.Plan with | some p => p.URL | none => "",
        PlanLink := match report1.Plan with | some p => p.Link | none => "" }
    let res1 := res.SetReady s (some report1)
    { ctrlResult := {}, retErr := none, resource := res1, calls := calls }

/-- The cloud-connected branch of `Reconcile` (`whoami != nil`): build
the lint variables and apply parameters, then run the plan lifecycle
when a repository is configured. -/
def reconcileCloud (env : Env) (res : AtlasSchema) (data : managedData) (hash : String)
    (desiredURL : String) (calls : List ACall) : ReconcileOut :=
  let vars0 : Vars2 :=
    [(("lint_destructive"), ("true")), (("lint_review"), LintReviewError)]
  let vars : Vars2 :=
    match data.Policy with
    | some p =>
      match p.Lint with
      | some l =>
        let v :=
          match l.Destructive with
          | some dd => vars0.set ("lint_destructive") (if dd.Error then "true" else "false")
          | none => vars0
        if l.Review ≠ "" then v.set ("lint_review") l.Review else v
      | none => vars0
    | none => vars0
  let params : SchemaApplyParams :=
    { Env := data.EnvName, Vars := vars, To := desiredURL, TxMode := data.TxMode,
      PlanURL := "", AutoApprove := false }
  match data.repoURL with
  | none =>
    let calls := calls ++ [ACall.schemaApply params]
    applyFinish env res hash env.schemaApply calls
  | some repo =>
    let doApply : SchemaApplyParams → List ACall → ReconcileOut := fun params calls =>
      let calls := calls ++ [ACall.schemaApply params]
      match env.schemaApply with
      | Except.error e =>
        if strHasPfx e.message ("Rejected by review policy") then
          createPlan env res data vars repo desiredURL hash calls
        else applyFinish env res hash (Except.error e) calls
      | Except.ok rep => applyFinish env res hash (Except.ok rep) calls
    let listParams : SchemaPlanListParams :=
      { Env := data.EnvName, Vars := vars, Repo := repo.toString,
        From := ["env://url"], To := [desiredURL] }
    let calls := calls ++ [ACall.schemaPlanList listParams]
    match env.schemaPlanList with
    | Except.error e => errOutClassified res ("ListingPlans") e calls
    | Except.ok plans =>
      match plans with
      | p1 :: p2 :: rest =>
        let planURLs := (p1 :: p2 :: rest).map SchemaPlanFile.URL
        let msg := ("multiple schema plans found: ") ++ String.intercalate (", ") planURLs
        let res1 := res.SetNotReady ("ListingPlans") msg
        let e := AErr.plain msg false
        let p := result e
        { ctrlResult := p.1, retErr := p.2, resource := res1, calls := calls }
      | [] =>
        if Vars2.get vars ("lint_review") = LintReviewAlways then
          createPlan env res data vars repo desiredURL hash calls
        else doApply params calls
      | [p] =>
        if p.Status = "PENDING" then
          let res1 := { res with
            Status := { res.Status with PlanURL := p.URL, PlanLink := p.Link } }
          let res2 := res1.SetNotReady ("ApprovalPending")
            ("Schema plan is waiting for approval")
          { ctrlResult := { Requeue := false, RequeueAfter := 5 }, retErr := none,
            resource := res2, calls := calls }
        else if p.Status = "APPROVED" then
          doApply { params with PlanURL := p.URL } calls
        else doApply params calls

/-- The non-cloud branches of `Reconcile`: first-ever apply with a
forced destructive lint, policy-demanded lint, or plain auto-approved
apply. -/
def reconcileLocal (env : Env) (res : AtlasSchema) (data : managedData) (hash : String)
    (desiredURL : String) (calls : List ACall) : ReconcileOut :=
  if res.Status.LastApplied = 0 then
    let lintVars : Vars2 := [(("lint_destructive"), ("true"))]
    let calls := calls ++ [ACall.lintRun lintVars]
    match env.lintResult with
    | LintOutcome.destructive reason msg _ =>
      { ctrlResult := {}, retErr := none, resource := res.SetNotReady reason msg,
        calls := calls }
    | LintOutcome.fail e => errOutClassified res ("VerifyingFirstRun") e calls
    | LintOutcome.ok =>
      let params : SchemaApplyParams :=
        { Env := data.EnvName, Vars := [], To := desiredURL, TxMode := data.TxMode,
          PlanURL := "", AutoApprove := true }
      applyFinish env res hash env.schemaApply (calls ++ [ACall.schemaApply params])
  else if data.shouldLint then
    let vars : Vars2 :=
      match data.Policy with
      | some pol =>
        match pol.Lint with
        | some l =>
          match l.Destructive with
          | some dd =>
            Vars2.set [] ("lint_destructive") (if dd.Error then "true" else "false")
          | none => []
        | none => []
      | none => []
    let calls := calls ++ [ACall.lintRun vars]
    match env.lintResult with
    | LintOutcome.destructive _ _ e => errOutClassified res ("LintPolicyError") e calls
    | LintOutcome.fail e => errOutClassified res ("LintPolicyError") e calls
    | LintOutcome.ok =>
      let params : SchemaApplyParams :=
        { Env := data.EnvName, Vars := vars, To := desiredURL, TxMode := data.TxMode,
          PlanURL := "", AutoApprove := true }
      applyFinish env res hash env.schemaApply (calls ++ [ACall.schemaApply params])
  else
    let params : SchemaApplyParams :=
      { Env := data.EnvName, Vars := [], To := desiredURL, TxMode := data.TxMode,
        PlanURL := "", AutoApprove := true }
    applyFinish env res hash env.schemaApply (calls ++ [ACall.schemaApply params])

/-- `AtlasSchemaReconciler.Reconcile` for one pass over an existing
resource, with the external collaborators answered by `env` and the
digest function abstracting SHA-256. -/
def reconcile (env : Env) (digest : List UInt8 → String) (res0 : AtlasSchema) :
    ReconcileOut :=
  if res0.Status.Conditions.length = 0 then
    { ctrlResult := { Requeue := true, RequeueAfter := 0 }, retErr := none,
      resource := res0.SetNotReady ("Reconciling") ("Reconciling"), calls := [] }
  else
    match env.extractData with
    | Except.error e => errOut res0 ("ReadSchema") e []
    | Except.ok data0 =>
      let hash := data0.hash digest
      if res0.IsReady && res0.IsHashModified hash then
        { ctrlResult := { Requeue := true, RequeueAfter := 0 }, retErr := none,
          resource := res0.SetNotReady ("Reconciling")
            ("current schema does not match last applied"),
          calls := [] }
      else
        match (if data0.DevURL = "" then
            (env.devURL.map fun u => { data0 with DevURL := u })
          else Except.ok data0) with
        | Except.error e => errOut res0 ("GettingDevDB") e []
        | Except.ok data =>
          match env.newWorkingDir with
          | Except.error e => errOut res0 ("CreatingWorkingDir") e []
          | Except.ok _ =>
            match env.atlasClient with
            | Except.error e => errOut res0 ("CreatingAtlasClient") e []
            | Except.ok _ =>
              let calls := [ACall.whoAmI]
              let desiredURL := data.Desired.toString
              match env.whoami with
              | WhoAmIRes.fail e => errOut res0 ("WhoAmI") e calls
              | WhoAmIRes.ok _ => reconcileCloud env res0 data hash desiredURL calls
              | WhoAmIRes.requireLogin => reconcileLocal env res0 data hash desiredURL calls

/-! ## Helper lemmas about condition upserts -/

theorem find_map_upsert (c : Condition) (conds : List Condition)
    (h : conds.any (fun x => x.type == c.type) = true) :
    (conds.map (fun x => if x.type == c.type then c else x)).find?
      (fun x => x.type == c.type) = some c := by
  induction conds with
  | nil => simp at h
  | cons hd tl ih =>
    by_cases hh : hd.type == c.type
    · simp [List.find?, hh]
    · simp only [List.any_cons, hh, Bool.false_or] at h
      simp only [List.map_cons, if_neg hh, List.find?]
      simp only [hh]
      exact ih h

theorem find_append_upsert (c : Condition) (conds : List Condition)
    (h : conds.any (fun x => x.type == c.type) = false) :
    (conds ++ [c]).find? (fun x => x.type == c.type) = some c := by
  induction conds with
  | nil => simp [List.find?]
  | cons hd tl ih =>
    simp only [List.any_cons, Bool.or_eq_false_iff] at h
    simp only [List.cons_append, List.find?, h.1]
    exact ih h.2

theorem find_setStatusCondition (conds : List Condition) (c : Condition) :
    findStatusCondition (setStatusCondition conds c) c.type = some c := by
  unfold findStatusCondition setStatusCondition
  by_cases h : conds.any (fun x => x.type == c.type)
  · rw [if_pos h]
    exact find_map_upsert c conds h
  · rw [if_neg h]
    exact find_append_upsert c conds (by simpa using h)

theorem mem_setStatusCondition_of_ne (conds : List Condition) (c x : Condition)
    (hx : x ∈ conds) (hne : x.type ≠ c.type) : x ∈ setStatusCondition conds c := by
  unfold setStatusCondition
  by_cases h : conds.any (fun y => y.type == c.type)
  · rw [if_pos h]
    refine List.mem_map.mpr ⟨x, hx, ?_⟩
    rw [if_neg (by simpa using hne)]
  · rw [if_neg h]
    exact List.mem_append_left _ hx

theorem setStatusCondition_subset (conds : List Condition) (c x : Condition)
    (hx : x ∈ setStatusCondition conds c) : x = c ∨ x ∈ conds := by
  unfold setStatusCondition at hx
  by_cases h : conds.any (fun y => y.type == c.type)
  · rw [if_pos h] at hx
    obtain ⟨y, hy, hyx⟩ := List.mem_map.mp hx
    by_cases hyc : y.type == c.type
    · rw [if_pos hyc] at hyx
      exact Or.inl hyx.symm
    · rw [if_neg hyc] at hyx
      exact Or.inr (hyx ▸ hy)
  · rw [if_neg h] at hx
    rcases List.mem_append.mp hx with h1 | h1
    · exact Or.inr h1
    · exact Or.inl (List.mem_singleton.mp h1)

/-! ## C6: the idempotency hash -/

/-- C6: the hash is content-addressed and deterministic.  `hash` feeds
the digest exactly the literal schema bytes when they are non-empty and
otherwise the canonical string of the desired-state locator
(`hashInput`); equal hashed byte content gives equal hashes, and under
the collision-freeness of the digest that the spec assumes of SHA-256
(hypothesis `hcoll`, stated at the two inputs concerned), different
hashed byte content gives different hashes. -/
theorem C6_hash_content_addressed (digest : List UInt8 → String) (x y : managedData)
    (hcoll : digest (hashInput x) = digest (hashInput y) → hashInput x = hashInput y) :
    managedData.hash digest x = digest (hashInput x) ∧
    (hashInput x = hashInput y →
      managedData.hash digest x = managedData.hash digest y) ∧
    (hashInput x ≠ hashInput y →
      managedData.hash digest x ≠ managedData.hash digest y) := by
  have hx : managedData.hash digest x = digest (hashInput x) := by
    by_cases h : x.schema.length > 0 <;> simp [managedData.hash, hashInput, h]
  have hy : managedData.hash digest y = digest (hashInput y) := by
    by_cases h : y.schema.length > 0 <;> simp [managedData.hash, hashInput, h]
  refine ⟨hx, fun h => ?_, fun hne heq => ?_⟩
  · rw [hx, hy, h]
  · exact hne (hcoll (by rw [← hx, ← hy, heq]))

/-- A concrete injective-enough digest for the C6 witness. -/
def wDigest (l : List UInt8) : String :=
  String.mk (l.map fun b => Char.ofNat b.toNat)

/-- A concrete desired-state URL shared by the witnesses. -/
def wURL : URL :=
  { Scheme := "file", Host := "", Path := "schema.sql", RawQuery := "" }

/-- A concrete `managedData` value with one given schema byte. -/
def wData (b : UInt8) : managedData :=
  { EnvName := "env", URL := wURL, DevURL := "sqlite://dev", Schemas := [],
    Exclude := [], Policy := none, TxMode := "file", Desired := wURL, Cloud := none,
    schema := [b] }

/-- Witness for C6 at a concrete digest and two concrete data values
whose schema bytes differ. -/
theorem C6_hash_content_addressed_witness :
    managedData.hash wDigest (wData 1) = wDigest (hashInput (wData 1)) ∧
    (hashInput (wData 1) = hashInput (wData 2) →
      managedData.hash wDigest (wData 1) = managedData.hash wDigest (wData 2)) ∧
    (hashInput (wData 1) ≠ hashInput (wData 2) →
      managedData.hash wDigest (wData 1) ≠ managedData.hash wDigest (wData 2)) :=
  C6_hash_content_addressed wDigest (wData 1) (wData 2) (by decide)

/-! ## C7 and C9: truncateSQL -/

/-- C7 counterexample: at `lines = ["ab\ncd", "x"]`, `limit = 4`, the
total byte length (6) exceeds the limit and the first line alone (5
bytes) exceeds the limit, yet the output is neither a single synthetic
summary line (its one element starts with the original content, not
with the summary marker) nor a two-element `[prefix, summary]` list. -/
theorem C7_counterexample :
    ((["ab\ncd", "x"].map stringSize).sum : Int) > 4 ∧
    ((stringSize ("ab\ncd") : Int) > 4) ∧
    truncateSQL ["ab\ncd", "x"] 4 = some ["ab\n-- truncated 3 bytes..."] ∧
    (∀ r, truncateSQL ["ab\ncd", "x"] 4 = some r → r.length = 1) ∧
    strHasPfx ("ab\n-- truncated 3 bytes...") ("-- truncated") = false := by
  refine ⟨by decide, by decide, by decide, ?_, by decide⟩
  intro r hr
  have : r = ["ab\n-- truncated 3 bytes..."] := by
    have h : truncateSQL ["ab\ncd", "x"] 4 = some ["ab\n-- truncated 3 bytes..."] := by decide
    rw [h] at hr
    exact (Option.some_injective _ hr).symm
  rw [this]
  rfl

/-- C7 (amended): full characterization of `truncateSQL` on a
non-empty list.  If the total byte length is within the limit the input
is returned unchanged.  Otherwise: if the first line alone fits, the
output is the two-element list of the first line and a summary; if the
first line does not fit but contains a line break at byte index at most
the limit, the output is a ONE-element list holding the first line
prefix, a line break and the summary; otherwise a single summary line.
In every branch the summary reports the number of bytes elided. -/
theorem C7_truncate_characterization (s0 : String) (rest : List String) (size : Int) :
    ((((s0 :: rest).map stringSize).sum : Int) ≤ size →
      truncateSQL (s0 :: rest) size = some (s0 :: rest)) ∧
    ((((s0 :: rest).map stringSize).sum : Int) > size →
      (((stringSize s0 : Int) ≤ size →
          truncateSQL (s0 :: rest) size =
            some [s0, ("-- truncated ")
              ++ toString (((s0 :: rest).map stringSize).sum - stringSize s0)
              ++ (" bytes...")]) ∧
       ((stringSize s0 : Int) > size → indexRune s0 '\n' ≠ -1 →
          indexRune s0 '\n' ≤ size →
          truncateSQL (s0 :: rest) size =
            some [firstLineOf s0 ++ ("\n-- truncated ")
              ++ toString (((((s0 :: rest).map stringSize).sum : Nat) : Int)
                  - (indexRune s0 '\n' + 1))
              ++ (" bytes...")]) ∧
       ((stringSize s0 : Int) > size →
          ¬ (indexRune s0 '\n' ≠ -1 ∧ indexRune s0 '\n' ≤ size) →
          truncateSQL (s0 :: rest) size =
            some [("-- truncated ") ++ toString (((s0 :: rest).map stringSize).sum)
              ++ (" bytes...")]))) := by
  constructor
  · intro h
    unfold truncateSQL
    rw [if_neg (by exact not_lt.mpr h)]
  · intro h
    refine ⟨fun h1 => ?_, fun h1 h2 h3 => ?_, fun h1 h2 => ?_⟩
    · unfold truncateSQL
      rw [if_pos h]
      simp only []
      rw [if_pos h1]
    · unfold truncateSQL
      rw [if_pos h]
      simp only []
      rw [if_neg (by exact not_le.mpr h1), if_pos ⟨h2, h3⟩]
    · unfold truncateSQL
      rw [if_pos h]
      simp only []
      rw [if_neg (by exact not_le.mpr h1), if_neg h2]

/-- Witness for C7 (amended), exercising all four branches at concrete
inputs. -/
theorem C7_truncate_characterization_witness :
    truncateSQL ["ab", "c"] 4 = some ["ab", "c"] ∧
    truncateSQL ["abc", "de"] 4 = some ["abc", "-- truncated 2 bytes..."] ∧
    truncateSQL ["ab\ncd", "x"] 4 = some ["ab\n-- truncated 3 bytes..."] ∧
    truncateSQL ["abcdef"] 4 = some ["-- truncated 6 bytes..."] :=
  ⟨(C7_truncate_characterization ("ab") ["c"] 4).1 (by decide),
   ((C7_truncate_characterization ("abc") ["de"] 4).2 (by decide)).1 (by decide),
   ((C7_truncate_characterization ("ab\ncd") ["x"] 4).2 (by decide)).2.1
     (by decide) (by decide) (by decide),
   ((C7_truncate_characterization ("abcdef") [] 4).2 (by decide)).2.2
     (by decide) (by decide)⟩

/-- C9: for a non-negative limit `truncateSQL` is total — the branch
that reads the first element is only reachable when the total byte
length is positive, hence the list non-empty — and the empty list is
returned unchanged. -/
theorem C9_truncate_total (s : List String) (size : Int) (h : 0 ≤ size) :
    (truncateSQL s size).isSome = true ∧
    truncateSQL ([] : List String) size = some [] := by
  have hnil : truncateSQL ([] : List String) size = some [] := by
    unfold truncateSQL
    rw [if_neg (by simpa using not_lt.mpr h)]
  refine ⟨?_, hnil⟩
  cases s with
  | nil => rw [hnil]; rfl
  | cons a l =>
    unfold truncateSQL
    have hcne : a :: l ≠ [] := List.cons_ne_nil a l
    repeat' split
    any_goals simp_all
    all_goals (split <;> simp_all)

/-- Witness for C9 at concrete inputs. -/
theorem C9_truncate_total_witness :
    (truncateSQL ["abcdef"] 0).isSome = true ∧
    truncateSQL ([] : List String) 0 = some [] :=
  C9_truncate_total ["abcdef"] 0 (by decide)

/-! ## C8: SetReady / SetNotReady and condition preservation -/

/-- A concrete resource carrying a non-Ready condition. -/
def c8Before : AtlasSchema :=
  { Status :=
    { Conditions := [{ type := "Foo", status := "True", reason := "r", message := "m" }],
      ObservedHash := "h", LastApplied := 1, PlanURL := "", PlanLink := "" } }

/-- A concrete fresh status as `Reconcile` passes to `SetReady`. -/
def c8NewStatus : AtlasSchemaStatus :=
  { Conditions := [], ObservedHash := "h2", LastApplied := 2, PlanURL := "", PlanLink := "" }

/-- C8 counterexample: `SetReady` deletes a pre-existing condition.
The resource holds a condition of type `Foo`; after `SetReady` with a
freshly built status (no conditions), as `Reconcile` does on success,
no condition of type `Foo` remains. -/
theorem C8_counterexample :
    (∃ c ∈ c8Before.Status.Conditions, c.type = "Foo") ∧
    (∀ c ∈ (c8Before.SetReady c8NewStatus none).Status.Conditions, c.type ≠ "Foo") := by
  decide

/-- C8 (amended): `SetNotReady` never deletes a condition — every
condition of a type other than Ready is preserved and the Ready
condition is overwritten in place (last write wins).  `SetReady`
however first replaces the whole status with the supplied one and only
then upserts the Ready condition into it, so the conditions present
afterwards are exactly the Ready condition plus conditions of the
supplied status: a condition present before the call survives only if
the supplied status also carries it. -/
theorem C8_conditions_amended (sc : AtlasSchema) (reason msg : String)
    (status : AtlasSchemaStatus) (report : Option SchemaApplyReport) :
    (∀ c ∈ sc.Status.Conditions, c.type ≠ readyCond →
       c ∈ (sc.SetNotReady reason msg).Status.Conditions) ∧
    (findStatusCondition (sc.SetNotReady reason msg).Status.Conditions readyCond =
       some { type := readyCond, status := "False", reason := reason, message := msg }) ∧
    (∀ c ∈ status.Conditions, c.type ≠ readyCond →
       c ∈ (sc.SetReady status report).Status.Conditions) ∧
    (∀ c ∈ (sc.SetReady status report).Status.Conditions,
       c.type = readyCond ∨ c ∈ status.Conditions) := by
  refine ⟨?_, ?_, ?_, ?_⟩
  · intro c hc hne
    exact mem_setStatusCondition_of_ne _ _ _ hc hne
  · exact find_setStatusCondition sc.Status.Conditions _
  · intro c hc hne
    exact mem_setStatusCondition_of_ne _ _ _ hc hne
  · intro c hc
    rcases setStatusCondition_subset _ _ _ hc with h | h
    · exact Or.inl (by rw [h])
    · exact Or.inr h

/-- Witness for C8 (amended) at concrete values: the `Foo` condition
survives `SetNotReady`, and the Ready condition is written. -/
theorem C8_conditions_amended_witness :
    ({ type := "Foo", status := "True", reason := "r", message := "m" : Condition} ∈
      (c8Before.SetNotReady ("R") ("M")).Status.Conditions) ∧
    (findStatusCondition (c8Before.SetNotReady ("R") ("M")).Status.Conditions readyCond =
      some { type := readyCond, status := "False", reason := "R", message := "M" }) :=
  ⟨(C8_conditions_amended c8Before ("R") ("M") c8NewStatus none).1 _ (by decide) (by decide),
   (C8_conditions_amended c8Before ("R") ("M") c8NewStatus none).2.1⟩

/-! ## C10: DesiredState priority order -/

/-- C10: `DesiredState` resolves the desired-state fields in the fixed
priority order config-map reference, inline HCL, inline SQL, URL: with
no reference and non-empty HCL the HCL content is used whatever SQL and
URL hold; with empty HCL and non-empty SQL the SQL content is used
whatever URL holds; with a reference set the outcome is that of the
resource with all inline fields cleared (the reference wins); and with
none of the four set the call fails with `no desired state specified`. -/
theorem C10_desired_state_priority (s : Schema) (reader : CMReader) (ns : String) :
    (s.ConfigMapKeyRef = none → s.HCL ≠ "" →
      s.DesiredState reader ns = Except.ok
        ({ Scheme := SchemaTypeFile, Host := "", Path := "schema.hcl", RawQuery := "" },
          utf8Bytes s.HCL)) ∧
    (s.ConfigMapKeyRef = none → s.HCL = "" → s.SQL ≠ "" →
      s.DesiredState reader ns = Except.ok
        ({ Scheme := SchemaTypeFile, Host := "", Path := "schema.sql", RawQuery := "" },
          utf8Bytes s.SQL)) ∧
    (∀ ref, s.ConfigMapKeyRef = some ref →
      s.DesiredState reader ns =
        Schema.DesiredState
          { SQL := "", HCL := "", URL := "", ConfigMapKeyRef := some ref } reader ns) ∧
    (s.ConfigMapKeyRef = none → s.HCL = "" → s.SQL = "" → s.URL = "" →
      s.DesiredState reader ns = Except.error ("no desired state specified")) := by
  refine ⟨fun href hhcl => ?_, fun href hhcl hsql => ?_, fun ref href => ?_,
    fun href hhcl hsql hurl => ?_⟩
  · unfold Schema.DesiredState
    rw [href]
    simp only [if_pos hhcl]
  · unfold Schema.DesiredState
    rw [href]
    simp only [hhcl]
    rw [if_neg (show ¬ ("" ≠ "") from by simp), if_pos hsql]
  · unfold Schema.DesiredState
    rw [href]
  · unfold Schema.DesiredState
    rw [href]
    simp only [hhcl, hsql, hurl]
    simp

/-- Witness for C10: with both HCL and SQL set the HCL wins; with
nothing set the no-desired-state error is returned. -/
theorem C10_desired_state_priority_witness :
    Schema.DesiredState
        { SQL := "select 1", HCL := "schema x", URL := "", ConfigMapKeyRef := none }
        (fun _ _ => none) ("ns")
      = Except.ok
        ({ Scheme := SchemaTypeFile, Host := "", Path := "schema.hcl", RawQuery := "" },
          utf8Bytes ("schema x")) ∧
    Schema.DesiredState { SQL := "", HCL := "", URL := "", ConfigMapKeyRef := none }
        (fun _ _ => none) ("ns")
      = Except.error ("no desired state specified") :=
  ⟨(C10_desired_state_priority
      { SQL := "select 1", HCL := "schema x", URL := "", ConfigMapKeyRef := none }
      (fun _ _ => none) ("ns")).1 rfl (by decide),
   (C10_desired_state_priority { SQL := "", HCL := "", URL := "", ConfigMapKeyRef := none }
      (fun _ _ => none) ("ns")).2.2.2 rfl rfl rfl rfl⟩

/-! ## C1: the idempotency gate -/

/-- C1: in a pass where the Ready condition is true and the hash of
the freshly extracted desired state differs from the observed hash,
`Reconcile` flips the Ready condition to False with reason
`Reconciling`, requests an immediate requeue, returns no error, and
performs no engine-client call at all (the call trace is empty, so in
particular no `SchemaApply` and no plan listing happen). -/
theorem C1_drift_gate (env : Env) (digest : List UInt8 → String) (res0 : AtlasSchema)
    (data : managedData)
    (hex : env.extractData = Except.ok data)
    (hready : res0.IsReady = true)
    (hmod : res0.IsHashModified (managedData.hash digest data) = true) :
    (reconcile env digest res0).calls = [] ∧
    (reconcile env digest res0).retErr = none ∧
    (reconcile env digest res0).ctrlResult = { Requeue := true, RequeueAfter := 0 } ∧
    findStatusCondition (reconcile env digest res0).resource.Status.Conditions readyCond =
      some { type := readyCond, status := "False", reason := "Reconciling",
             message := "current schema does not match last applied" } := by
  have hne : ¬ (res0.Status.Conditions.length = 0) := by
    intro hlen
    rw [List.length_eq_zero] at hlen
    rw [AtlasSchema.IsReady, IsStatusConditionTrue, findStatusCondition, hlen] at hready
    simp [List.find?] at hready
  have hout : reconcile env digest res0 =
      { ctrlResult := { Requeue := true, RequeueAfter := 0 }, retErr := none,
        resource := res0.SetNotReady ("Reconciling")
          ("current schema does not match last applied"),
        calls := [] } := by
    unfold reconcile
    rw [if_neg hne]
    simp only [hex, hready, hmod, Bool.and_self, if_pos]
  rw [hout]
  exact ⟨rfl, rfl, rfl, find_setStatusCondition _ _⟩

/-- Shared reduction: under the hypotheses that the resource is past
initialization, extraction succeeds, the idempotency gate does not
fire, a dev database is configured and the working directory and
client are created, a pass reduces to the branch selected by the
`WhoAmI` answer. -/
theorem reconcile_reduces (env : Env) (digest : List UInt8 → String) (res0 : AtlasSchema)
    (data : managedData)
    (hconds : res0.Status.Conditions ≠ [])
    (hex : env.extractData = Except.ok data)
    (hgate : (res0.IsReady && res0.IsHashModified (managedData.hash digest data)) = false)
    (hdev : data.DevURL ≠ "")
    (hwd : env.newWorkingDir = Except.ok ())
    (hcli : env.atlasClient = Except.ok ()) :
    reconcile env digest res0 =
      match env.whoami with
      | WhoAmIRes.fail e => errOut res0 ("WhoAmI") e [ACall.whoAmI]
      | WhoAmIRes.ok _ =>
        reconcileCloud env res0 data (managedData.hash digest data)
          data.Desired.toString [ACall.whoAmI]
      | WhoAmIRes.requireLogin =>
        reconcileLocal env res0 data (managedData.hash digest data)
          data.Desired.toString [ACall.whoAmI] := by
  have hne : ¬ (res0.Status.Conditions.length = 0) := by
    simpa [List.length_eq_zero] using hconds
  unfold reconcile
  rw [if_neg hne]
  simp only [hex, hgate, Bool.false_eq_true, if_false, hdev, ite_false, hwd, hcli]

/-! ## C2: multiple pending plans are a fatal error -/

/-- C2: in a cloud-connected pass where the plan listing returns two
or more plans, the pass ends with the Ready condition False with
reason `ListingPlans` and a message enumerating every returned plan
URL (joined with a comma), the returned error is the plain error built
from that message — not wrapped as transient — and the controller
result requests no requeue. -/
theorem C2_multiple_plans (env : Env) (digest : List UInt8 → String) (res0 : AtlasSchema)
    (data : managedData) (org : String) (repo : URL) (p1 p2 : SchemaPlanFile)
    (rest : List SchemaPlanFile)
    (hconds : res0.Status.Conditions ≠ [])
    (hex : env.extractData = Except.ok data)
    (hgate : (res0.IsReady && res0.IsHashModified (managedData.hash digest data)) = false)
    (hdev : data.DevURL ≠ "")
    (hwd : env.newWorkingDir = Except.ok ())
    (hcli : env.atlasClient = Except.ok ())
    (hwho : env.whoami = WhoAmIRes.ok org)
    (hrepo : data.repoURL = some repo)
    (hplans : env.schemaPlanList = Except.ok (p1 :: p2 :: rest)) :
    (reconcile env digest res0).retErr =
      some (AErr.plain (("multiple schema plans found: ")
        ++ String.intercalate (", ") ((p1 :: p2 :: rest).map SchemaPlanFile.URL)) false) ∧
    (∀ e, (reconcile env digest res0).retErr = some e → isTransient e = false) ∧
    (reconcile env digest res0).ctrlResult = { Requeue := false, RequeueAfter := 0 } ∧
    findStatusCondition (reconcile env digest res0).resource.Status.Conditions readyCond =
      some { type := readyCond, status := "False", reason := "ListingPlans",
             message := ("multiple schema plans found: ")
               ++ String.intercalate (", ") ((p1 :: p2 :: rest).map SchemaPlanFile.URL) } := by
  have hred := reconcile_reduces env digest res0 data hconds hex hgate hdev hwd hcli
  rw [hwho] at hred
  rw [hred]
  simp only [reconcileCloud, hrepo, hplans, result, isTransient]
  refine ⟨rfl, ?_, rfl, find_setStatusCondition _ _⟩
  intro e he
  cases Option.some_injective _ he
  rfl

/-! ## C3: exactly one PENDING plan -/

/-- C3: in a cloud-connected pass where the plan listing returns
exactly one plan whose status is PENDING, the pass publishes that
plan's URL and link in the status, sets the Ready condition to False
with reason `ApprovalPending`, returns no error and requests a requeue
after the fixed 5-second delay. -/
theorem C3_pending_plan (env : Env) (digest : List UInt8 → String) (res0 : AtlasSchema)
    (data : managedData) (org : String) (repo : URL) (p : SchemaPlanFile)
    (hconds : res0.Status.Conditions ≠ [])
    (hex : env.extractData = Except.ok data)
    (hgate : (res0.IsReady && res0.IsHashModified (managedData.hash digest data)) = false)
    (hdev : data.DevURL ≠ "")
    (hwd : env.newWorkingDir = Except.ok ())
    (hcli : env.atlasClient = Except.ok ())
    (hwho : env.whoami = WhoAmIRes.ok org)
    (hrepo : data.repoURL = some repo)
    (hplans : env.schemaPlanList = Except.ok [p])
    (hpend : p.Status = "PENDING") :
    (reconcile env digest res0).resource.Status.PlanURL = p.URL ∧
    (reconcile env digest res0).resource.Status.PlanLink = p.Link ∧
    (reconcile env digest res0).retErr = none ∧
    (reconcile env digest res0).ctrlResult = { Requeue := false, RequeueAfter := 5 } ∧
    findStatusCondition (reconcile env digest res0).resource.Status.Conditions readyCond =
      some { type := readyCond, status := "False", reason := "ApprovalPending",
             message := "Schema plan is waiting for approval" } := by
  have hred := reconcile_reduces env digest res0 data hconds hex hgate hdev hwd hcli
  rw [hwho] at hred
  rw [hred]
  simp only [reconcileCloud, hrepo, hplans]
  rw [if_pos hpend]
  exact ⟨rfl, rfl, rfl, rfl, find_setStatusCondition _ _⟩

/-- Call-trace facts about `createPlan`: it only appends calls to the
trace it is given, and none of the appended calls is a `SchemaApply`. -/
theorem createPlan_apply_calls (env : Env) (res : AtlasSchema) (data : managedData)
    (vars : Vars2) (repo : URL) (durl hash : String) (calls : List ACall) :
    (∀ x ∈ calls, x ∈ (createPlan env res data vars repo durl hash calls).calls) ∧
    (∀ q : SchemaApplyParams,
      ACall.schemaApply q ∈ (createPlan env res data vars repo durl hash calls).calls →
      ACall.schemaApply q ∈ calls) := by
  constructor
  · intro x hx
    unfold createPlan
    repeat' split
    all_goals simp [errOutClassified, errOut, hx]
  · intro q hq
    unfold createPlan at hq
    repeat' split at hq
    all_goals simp_all [errOutClassified, errOut]

/-! ## C4: exactly one APPROVED plan -/

/-- C4: in a cloud-connected pass where the plan listing returns
exactly one plan whose status is APPROVED, the pass performs a
`SchemaApply` call, and every `SchemaApply` call it performs carries
that plan's URL in the `PlanURL` parameter. -/
theorem C4_approved_plan (env : Env) (digest : List UInt8 → String) (res0 : AtlasSchema)
    (data : managedData) (org : String) (repo : URL) (p : SchemaPlanFile)
    (hconds : res0.Status.Conditions ≠ [])
    (hex : env.extractData = Except.ok data)
    (hgate : (res0.IsReady && res0.IsHashModified (managedData.hash digest data)) = false)
    (hdev : data.DevURL ≠ "")
    (hwd : env.newWorkingDir = Except.ok ())
    (hcli : env.atlasClient = Except.ok ())
    (hwho : env.whoami = WhoAmIRes.ok org)
    (hrepo : data.repoURL = some repo)
    (hplans : env.schemaPlanList = Except.ok [p])
    (happr : p.Status = "APPROVED") :
    (∃ q : SchemaApplyParams,
       ACall.schemaApply q ∈ (reconcile env digest res0).calls ∧ q.PlanURL = p.URL) ∧
    (∀ q : SchemaApplyParams,
       ACall.schemaApply q ∈ (reconcile env digest res0).calls → q.PlanURL = p.URL) := by
  have hred := reconcile_reduces env digest res0 data hconds hex hgate hdev hwd hcli
  rw [hwho] at hred
  rw [hred]
  simp only [reconcileCloud, hrepo, hplans]
  have hnp : ¬ (p.Status = "PENDING") := by rw [happr]; decide
  rw [if_neg hnp, if_pos happr]
  cases happly : env.schemaApply with
  | ok rep =>
    simp only [applyFinish]
    constructor
    · exact ⟨_, List.mem_append_right _ (List.mem_singleton_self _), rfl⟩
    · intro q hq
      simp only [List.mem_append, List.mem_singleton] at hq
      rcases hq with (h | h) | h
      · simp at h
      · simp at h
      · injection h with h2
        rw [h2]
  | error e =>
    by_cases hrej : strHasPfx e.message ("Rejected by review policy") = true
    · simp only [hrej, if_true]
      constructor
      · exact ⟨_, (createPlan_apply_calls env res0 data _ repo _ _ _).1 _
          (List.mem_append_right _ (List.mem_singleton_self _)), rfl⟩
      · intro q hq
        have hc := (createPlan_apply_calls env res0 data _ repo _ _ _).2 q hq
        simp only [List.mem_append, List.mem_singleton] at hc
        rcases hc with (h | h) | h
        · simp at h
        · simp at h
        · injection h with h2
          rw [h2]
    · simp only [hrej, Bool.false_eq_true, if_false]
      simp only [applyFinish, errOutClassified]
      constructor
      · exact ⟨_, List.mem_append_right _ (List.mem_singleton_self _), rfl⟩
      · intro q hq
        simp only [List.mem_append, List.mem_singleton] at hq
        rcases hq with (h | h) | h
        · simp at h
        · simp at h
        · injection h with h2
          rw [h2]

/-! ## C5: first-run destructive lint -/

/-- C5: in a non-cloud pass with `lastApplied == 0`, the destructive
lint runs with `lint_destructive=true` before any apply; when it
reports a destructive-change error the pass sets the Ready condition
to False with the first-run reason and message, returns no error and
no requeue request, and never calls `SchemaApply` (the whole call
trace is `WhoAmI` followed by the lint run). -/
theorem C5_first_run_destructive (env : Env) (digest : List UInt8 → String)
    (res0 : AtlasSchema) (data : managedData) (reason msg : String) (e : AErr)
    (hconds : res0.Status.Conditions ≠ [])
    (hex : env.extractData = Except.ok data)
    (hgate : (res0.IsReady && res0.IsHashModified (managedData.hash digest data)) = false)
    (hdev : data.DevURL ≠ "")
    (hwd : env.newWorkingDir = Except.ok ())
    (hcli : env.atlasClient = Except.ok ())
    (hwho : env.whoami = WhoAmIRes.requireLogin)
    (hlast : res0.Status.LastApplied = 0)
    (hlint : env.lintResult = LintOutcome.destructive reason msg e) :
    (reconcile env digest res0).calls =
      [ACall.whoAmI, ACall.lintRun [(("lint_destructive"), ("true"))]] ∧
    (∀ q : SchemaApplyParams, ACall.schemaApply q ∉ (reconcile env digest res0).calls) ∧
    (reconcile env digest res0).retErr = none ∧
    (reconcile env digest res0).ctrlResult = { Requeue := false, RequeueAfter := 0 } ∧
    findStatusCondition (reconcile env digest res0).resource.Status.Conditions readyCond =
      some { type := readyCond, status := "False", reason := reason, message := msg } := by
  have hred := reconcile_reduces env digest res0 data hconds hex hgate hdev hwd hcli
  rw [hwho] at hred
  rw [hred]
  simp only [reconcileLocal]
  rw [if_pos hlast]
  simp only [hlint]
  refine ⟨by simp, ?_, by trivial, by trivial,
    by exact find_setStatusCondition _ _⟩
  intro q hq
  simp at hq

/-! ## Concrete witness data for the reconcile theorems -/

/-- A concrete plain error. -/
def wErr : AErr := AErr.plain ("boom") false

/-- Concrete managed data connected to Atlas Cloud. -/
def wCloudData : managedData :=
  { wData 1 with Cloud := some { Token := "tok", Repo := "myrepo" } }

/-- A concrete resource whose Ready condition is False. -/
def wNotReadyRes : AtlasSchema :=
  { Status :=
    { Conditions :=
        [{ type := "Ready", status := "False", reason := "Reconciling", message := "m" }],
      ObservedHash := "", LastApplied := 0, PlanURL := "", PlanLink := "" } }

/-- A concrete resource whose Ready condition is True. -/
def wReadyRes : AtlasSchema :=
  { Status :=
    { Conditions :=
        [{ type := "Ready", status := "True", reason := "Applied", message := "m" }],
      ObservedHash := "old", LastApplied := 7, PlanURL := "", PlanLink := "" } }

/-- The repository URL of `wCloudData`. -/
def wRepo : URL := { Scheme := "atlas", Host := "myrepo", Path := "", RawQuery := "" }

/-- A concrete plan file. -/
def wPlan (st u : String) : SchemaPlanFile := { URL := u, Link := "link", Status := st }

/-- A concrete empty apply report. -/
def wReport : SchemaApplyReport := { Changes := { Applied := [], Pending := [] }, Plan := none }

/-- A concrete collaborator environment; the fields a given witness
needs are overridden at its use site. -/
def wEnvBase : Env :=
  { extractData := Except.ok (wData 1), devURL := Except.error wErr,
    newWorkingDir := Except.ok (), atlasClient := Except.ok (),
    whoami := WhoAmIRes.requireLogin, schemaInspect := Except.error wErr,
    schemaPush := Except.error wErr, schemaPlan := Except.error wErr,
    schemaPlanList := Except.error wErr, schemaApply := Except.ok wReport,
    lintResult := LintOutcome.ok, now := 100 }

/-- Witness for C1 at a concrete environment and resource. -/
theorem C1_drift_gate_witness :
    (reconcile wEnvBase wDigest wReadyRes).calls = [] ∧
    (reconcile wEnvBase wDigest wReadyRes).retErr = none ∧
    (reconcile wEnvBase wDigest wReadyRes).ctrlResult =
      { Requeue := true, RequeueAfter := 0 } ∧
    findStatusCondition
        (reconcile wEnvBase wDigest wReadyRes).resource.Status.Conditions readyCond =
      some { type := readyCond, status := "False", reason := "Reconciling",
             message := "current schema does not match last applied" } :=
  C1_drift_gate wEnvBase wDigest wReadyRes (wData 1) rfl (by decide) (by decide)

/-- The concrete environment of the C2 witness. -/
def wEnvC2 : Env :=
  { wEnvBase with
    extractData := Except.ok wCloudData, whoami := WhoAmIRes.ok ("org"),
    schemaPlanList := Except.ok [wPlan ("PENDING") ("u1"), wPlan ("PENDING") ("u2")] }

/-- Witness for C2 at a concrete environment with two pending plans. -/
theorem C2_multiple_plans_witness :
    (reconcile wEnvC2 wDigest wNotReadyRes).retErr =
      some (AErr.plain (("multiple schema plans found: ")
        ++ String.intercalate (", ")
          ((wPlan ("PENDING") ("u1") :: wPlan ("PENDING") ("u2") :: []).map
            SchemaPlanFile.URL)) false) ∧
    (∀ e, (reconcile wEnvC2 wDigest wNotReadyRes).retErr = some e →
      isTransient e = false) ∧
    (reconcile wEnvC2 wDigest wNotReadyRes).ctrlResult =
      { Requeue := false, RequeueAfter := 0 } ∧
    findStatusCondition
        (reconcile wEnvC2 wDigest wNotReadyRes).resource.Status.Conditions readyCond =
      some { type := readyCond, status := "False", reason := "ListingPlans",
             message := ("multiple schema plans found: ")
               ++ String.intercalate (", ")
                 ((wPlan ("PENDING") ("u1") :: wPlan ("PENDING") ("u2") :: []).map
                   SchemaPlanFile.URL) } :=
  C2_multiple_plans wEnvC2 wDigest wNotReadyRes wCloudData ("org") wRepo
    (wPlan ("PENDING") ("u1")) (wPlan ("PENDING") ("u2")) [] (by decide) rfl
    (by decide) (by decide) rfl rfl rfl rfl rfl

/-- The concrete environment of the C3 witness. -/
def wEnvC3 : Env :=
  { wEnvBase with
    extractData := Except.ok wCloudData, whoami := WhoAmIRes.ok ("org"),
    schemaPlanList := Except.ok [wPlan ("PENDING") ("u1")] }

/-- Witness for C3 at a concrete environment with one pending plan. -/
theorem C3_pending_plan_witness :
    (reconcile wEnvC3 wDigest wNotReadyRes).resource.Status.PlanURL =
      (wPlan ("PENDING") ("u1")).URL ∧
    (reconcile wEnvC3 wDigest wNotReadyRes).resource.Status.PlanLink =
      (wPlan ("PENDING") ("u1")).Link ∧
    (reconcile wEnvC3 wDigest wNotReadyRes).retErr = none ∧
    (reconcile wEnvC3 wDigest wNotReadyRes).ctrlResult =
      { Requeue := false, RequeueAfter := 5 } ∧
    findStatusCondition
        (reconcile wEnvC3 wDigest wNotReadyRes).resource.Status.Conditions readyCond =
      some { type := readyCond, status := "False", reason := "ApprovalPending",
             message := "Schema plan is waiting for approval" } :=
  C3_pending_plan wEnvC3 wDigest wNotReadyRes wCloudData ("org") wRepo
    (wPlan ("PENDING") ("u1")) (by decide) rfl (by decide) (by decide) rfl rfl rfl rfl
    rfl rfl

/-- The concrete environment of the C4 witness. -/
def wEnvC4 : Env :=
  { wEnvBase with
    extractData := Except.ok wCloudData, whoami := WhoAmIRes.ok ("org"),
    schemaPlanList := Except.ok [wPlan ("APPROVED") ("u1")] }

/-- Witness for C4 at a concrete environment with one approved plan. -/
theorem C4_approved_plan_witness :
    (∃ q : SchemaApplyParams,
       ACall.schemaApply q ∈ (reconcile wEnvC4 wDigest wNotReadyRes).calls ∧
       q.PlanURL = (wPlan ("APPROVED") ("u1")).URL) ∧
    (∀ q : SchemaApplyParams,
       ACall.schemaApply q ∈ (reconcile wEnvC4 wDigest wNotReadyRes).calls →
       q.PlanURL = (wPlan ("APPROVED") ("u1")).URL) :=
  C4_approved_plan wEnvC4 wDigest wNotReadyRes wCloudData ("org") wRepo
    (wPlan ("APPROVED") ("u1")) (by decide) rfl (by decide) (by decide) rfl rfl rfl rfl
    rfl rfl

/-- The concrete environment of the C5 witness. -/
def wEnvC5 : Env :=
  { wEnvBase with
    lintResult := LintOutcome.destructive ("FirstRunDestructive") ("destructive") wErr }

/-- Witness for C5 at a concrete environment whose lint run reports a
destructive change on a first-run resource. -/
theorem C5_first_run_destructive_witness :
    (reconcile wEnvC5 wDigest wNotReadyRes).calls =
      [ACall.whoAmI, ACall.lintRun [(("lint_destructive"), ("true"))]] ∧
    (∀ q : SchemaApplyParams,
      ACall.schemaApply q ∉ (reconcile wEnvC5 wDigest wNotReadyRes).calls) ∧
    (reconcile wEnvC5 wDigest wNotReadyRes).retErr = none ∧
    (reconcile wEnvC5 wDigest wNotReadyRes).ctrlResult =
      { Requeue := false, RequeueAfter := 0 } ∧
    findStatusCondition
        (reconcile wEnvC5 wDigest wNotReadyRes).resource.Status.Conditions readyCond =
      some { type := readyCond, status := "False", reason := "FirstRunDestructive",
             message := "destructive" } :=
  C5_first_run_destructive wEnvC5 wDigest wNotReadyRes (wData 1) ("FirstRunDestructive")
    ("destructive") wErr (by decide) rfl (by decide) (by decide) rfl rfl rfl rfl rfl

end AtlasOp
